import Mathlib

/-!
Verification of the GCP KMS client façade (`pkg/signature/kms/gcp/client.go`)
against its natural-language specification.

The Go source is shallowly embedded below: pure helpers become Lean
functions; the remote KMS service is an explicit environment of
response functions; every remote invocation is recorded in an event
trace together with the cancellation context it was issued with; the
TTL cache is explicit state threaded through the operations.
-/

namespace GCPKMS

/-- Cancellation context: either `context.Background()` or a
caller-supplied context (identified by a tag). -/
inductive Ctx
  | background
  | caller (n : Nat)
deriving DecidableEq

/-- The subset of `crypto.Hash` values this client distinguishes.
`sha224` stands for any member outside {SHA-256, SHA-384, SHA-512}
(the `default` branch of the hash switch in `sign`). -/
inductive HashFunc
  | sha224
  | sha256
  | sha384
  | sha512
deriving DecidableEq

/-- `kmspb.CryptoKeyVersion_CryptoKeyVersionAlgorithm`: the ten signing
algorithms handled by `client.go` plus representatives of the remaining
members of the service enumeration (symmetric, decryption, secp256k1,
HMAC, unspecified), which the code must fail closed on. -/
inductive NativeAlg
  | EC_SIGN_P256_SHA256
  | EC_SIGN_P384_SHA384
  | RSA_SIGN_PKCS1_2048_SHA256
  | RSA_SIGN_PKCS1_3072_SHA256
  | RSA_SIGN_PKCS1_4096_SHA256
  | RSA_SIGN_PKCS1_4096_SHA512
  | RSA_SIGN_PSS_2048_SHA256
  | RSA_SIGN_PSS_3072_SHA256
  | RSA_SIGN_PSS_4096_SHA256
  | RSA_SIGN_PSS_4096_SHA512
  | GOOGLE_SYMMETRIC_ENCRYPTION
  | RSA_DECRYPT_OAEP_2048_SHA256
  | EC_SIGN_SECP256K1_SHA256
  | HMAC_SHA256
  | CRYPTO_KEY_VERSION_ALGORITHM_UNSPECIFIED
deriving DecidableEq

/-- `kmspb.CryptoKey_CryptoKeyPurpose` (the members the code can meet). -/
inductive Purpose
  | ASYMMETRIC_SIGN
  | ENCRYPT_DECRYPT
  | ASYMMETRIC_DECRYPT
  | PURPOSE_UNSPECIFIED
deriving DecidableEq

/-- A decoded public key (`crypto.PublicKey` after the PEM decoder):
either an `*ecdsa.PublicKey` or an `*rsa.PublicKey`, identified by an
abstract key value. -/
inductive PubKey
  | ecdsaKey (n : Nat)
  | rsaKey (n : Nat)
deriving DecidableEq

/-- `kmspb.CryptoKey` — only the field the code reads. -/
structure CryptoKey where
  purpose : Purpose
deriving DecidableEq

/-- `kmspb.CryptoKeyVersion` — the fields the code reads. -/
structure KVMsg where
  name : String
  algorithm : NativeAlg
deriving DecidableEq

/-- Error values produced by the client, mirroring the Go error values
and `errors.Wrap` chains message-for-message. -/
inductive GCPError
  /-- `ErrKMSReference`: "kms specification should be in the format
  gcpkms://projects/[PROJECT_ID]/locations/[LOCATION]/keyRings/[KEY_RING]/cryptoKeys/[KEY]/versions/[VERSION]"
  (the message carries the expected grammar). -/
  | kmsReference
  /-- `errors.Errorf("invalid gcpkms format %q", resourceID)` from `parseReference`. -/
  | invalidFormat (resourceID : String)
  /-- "specified key cannot be used to sign" -/
  | cannotSign
  /-- "unknown algorithm specified by KMS" (both `default` branches of
  the algorithm switches in `keyVersionName`). -/
  | unknownAlgorithm
  /-- The local verifier factory was handed a nil key. -/
  | invalidKey
  /-- "unsupported hash function" in `sign`. -/
  | unsupportedHash
  /-- "AsymmetricSign: request corrupted in-transit" -/
  | requestCorrupted
  /-- "AsymmetricSign: response corrupted in-transit" -/
  | responseCorrupted
  /-- "unknown algorithm requested" in `createKey`. -/
  | unknownAlgorithmRequested
  /-- A failure produced by the remote service (abstract code). -/
  | remoteErr (code : Nat)
  /-- `errors.Wrap(inner, msg)`. -/
  | wrap (msg : String) (inner : GCPError)
deriving DecidableEq

/-- The local verifier (`signature.SignerVerifier`) as the code uses it:
it stores the public key it was built over and the hash function. -/
structure SignerVerifier where
  pubKey : PubKey
  hashFunc : HashFunc
deriving DecidableEq

/-- `cryptoKeyVersion` struct of `client.go` (the resolved key version). -/
structure cryptoKeyVersion where
  CryptoKeyVersion : KVMsg
  SignerVerifier : SignerVerifier
  HashFunc : HashFunc
deriving DecidableEq

/-- `kmspb.AsymmetricSignRequest` — the fields the code sets.
`digestHash` records which oneof member of `Digest` was populated. -/
structure SignRequest where
  name : String
  digestHash : HashFunc
  digest : List Nat
  digestCrc32C : Option Int
deriving DecidableEq

/-- `kmspb.AsymmetricSignResponse` — the fields the code reads.
`signatureCrc32C` is a `*wrapperspb.Int64Value`, hence optional. -/
structure SignResponse where
  signature : List Nat
  signatureCrc32C : Option Int
  verifiedDigestCrc32C : Bool
deriving DecidableEq

/-- One remote invocation (or local cache/verify action), recorded with
the cancellation context it was issued under. -/
inductive Event
  | getCryptoKey (ctx : Ctx) (name : String)
  | getCryptoKeyVersion (ctx : Ctx) (name : String)
  | listCryptoKeyVersions (ctx : Ctx) (parent : String)
  | getPublicKey (ctx : Ctx) (name : String)
  | asymmetricSign (ctx : Ctx) (req : SignRequest)
  | getKeyRing (ctx : Ctx) (name : String)
  | createKeyRing (ctx : Ctx) (parent : String) (keyRingId : String)
  | createCryptoKey (ctx : Ctx) (parent : String) (keyId : String) (alg : NativeAlg)
  | cacheRemove
  | verifyAttempt (sv : SignerVerifier)
deriving DecidableEq

/-- The context a trace event was issued with (`none` for local actions). -/
def eventCtx : Event → Option Ctx
  | .getCryptoKey c _ => some c
  | .getCryptoKeyVersion c _ => some c
  | .listCryptoKeyVersions c _ => some c
  | .getPublicKey c _ => some c
  | .asymmetricSign c _ => some c
  | .getKeyRing c _ => some c
  | .createKeyRing c _ _ => some c
  | .createCryptoKey c _ _ _ => some c
  | .cacheRemove => none
  | .verifyAttempt _ => none

/-- Outcome of an operation: normal value, returned error, or a Go
runtime panic (nil dereference / failed type assertion). -/
inductive Res (α : Type)
  | ok (a : α)
  | err (e : GCPError)
  | panic
deriving DecidableEq

/-- The remote KMS service and the PEM decoder, as an environment of
response functions. Contexts are recorded in the event trace, not here:
the environment describes what the service answers, the trace records
how it was called. -/
structure KMSEnv where
  getCryptoKey : String → Except GCPError CryptoKey
  getCryptoKeyVersion : String → Except GCPError KVMsg
  /-- First item of the `ListCryptoKeyVersions` iterator for
  `filter="state=ENABLED", orderBy="name desc"` (what `iterator.Next()`
  returns). -/
  listNext : String → Except GCPError KVMsg
  getPublicKey : String → Except GCPError String
  /-- Modelled from the spec: the PEM decoder collaborator (§6),
  bytes → public key object, failing on malformed input. Its Go source
  (`cryptoutils.UnmarshalPEMToPublicKey`) is not part of this package. -/
  unmarshalPEM : String → Except GCPError PubKey
  asymmetricSign : SignRequest → Except GCPError SignResponse
  getKeyRing : String → Except GCPError String
  createKeyRing : String → String → Except GCPError String
  createCryptoKey : String → String → NativeAlg → Except GCPError Unit

/-- The fields of `gcpClient` that parameterize its methods. -/
structure GClient where
  projectID : String
  locationID : String
  keyRing : String
  keyName : String
  version : String
deriving DecidableEq

/-- `fmt.Sprintf("projects/%s/locations/%s/keyRings/%s/cryptoKeys/%s", …)`. -/
def keyParent (g : GClient) : String :=
  "projects/" ++ g.projectID ++ "/locations/" ++ g.locationID ++ "/keyRings/"
    ++ g.keyRing ++ "/cryptoKeys/" ++ g.keyName

/-- `fmt.Sprintf("projects/%s/locations/%s/keyRings/%s", …)`. -/
def keyRingName (g : GClient) : String :=
  "projects/" ++ g.projectID ++ "/locations/" ++ g.locationID ++ "/keyRings/" ++ g.keyRing

/-- `fmt.Sprintf("projects/%s/locations/%s", …)`. -/
def ringParent (g : GClient) : String :=
  "projects/" ++ g.projectID ++ "/locations/" ++ g.locationID

/-! ## CRC-32C (Castagnoli)

`crc32.Checksum(data, crc32.MakeTable(crc32.Castagnoli))`: bit-level
definition of the reflected CRC-32 with polynomial `0x82F63B78`
(the table in the Go standard library is a byte-at-a-time cache of
exactly this computation). -/

/-- One bit step of the reflected CRC-32C. -/
def crc32cStep (crc : Nat) : Nat :=
  if crc % 2 = 1 then (crc / 2) ^^^ 0x82F63B78 else crc / 2

/-- Iterate `crc32cStep`. -/
def crc32cIter : Nat → Nat → Nat
  | 0, c => c
  | n + 1, c => crc32cIter n (crc32cStep c)

/-- Absorb one byte. -/
def crc32cByte (crc b : Nat) : Nat :=
  crc32cIter 8 (crc ^^^ b % 256)

/-- CRC-32C checksum of a byte sequence. -/
def crc32c (data : List Nat) : Nat :=
  (data.foldl crc32cByte 0xFFFFFFFF) ^^^ 0xFFFFFFFF

/-! ## Algorithm mapper -/

def Algorithm_ECDSA_P256_SHA256 : String := "ecdsa-p256-sha256"
def Algorithm_ECDSA_P384_SHA384 : String := "ecdsa-p384-sha384"
def Algorithm_RSA_PKCS1v15_2048_SHA256 : String := "rsa-pkcs1v15-2048-sha256"
def Algorithm_RSA_PKCS1v15_3072_SHA256 : String := "rsa-pkcs1v15-3072-sha256"
def Algorithm_RSA_PKCS1v15_4096_SHA256 : String := "rsa-pkcs1v15-4096-sha256"
def Algorithm_RSA_PKCS1v15_4096_SHA512 : String := "rsa-pkcs1v15-4096-sha512"
def Algorithm_RSA_PSS_2048_SHA256 : String := "rsa-pss-2048-sha256"
def Algorithm_RSA_PSS_3072_SHA256 : String := "rsa-pss-3072-sha256"
def Algorithm_RSA_PSS_4096_SHA256 : String := "rsa-pss-4096-sha256"
def Algorithm_RSA_PSS_4096_SHA512 : String := "rsa-pss-4096-sha512"

/-- The `algorithmMap` of `createKey` (caller-facing name → native
algorithm); `none` models absence from the Go map. -/
def algorithmMap (algorithm : String) : Option NativeAlg :=
  if algorithm = Algorithm_ECDSA_P256_SHA256 then some .EC_SIGN_P256_SHA256
  else if algorithm = Algorithm_ECDSA_P384_SHA384 then some .EC_SIGN_P384_SHA384
  else if algorithm = Algorithm_RSA_PKCS1v15_2048_SHA256 then some .RSA_SIGN_PKCS1_2048_SHA256
  else if algorithm = Algorithm_RSA_PKCS1v15_3072_SHA256 then some .RSA_SIGN_PKCS1_3072_SHA256
  else if algorithm = Algorithm_RSA_PKCS1v15_4096_SHA256 then some .RSA_SIGN_PKCS1_4096_SHA256
  else if algorithm = Algorithm_RSA_PKCS1v15_4096_SHA512 then some .RSA_SIGN_PKCS1_4096_SHA512
  else if algorithm = Algorithm_RSA_PSS_2048_SHA256 then some .RSA_SIGN_PSS_2048_SHA256
  else if algorithm = Algorithm_RSA_PSS_3072_SHA256 then some .RSA_SIGN_PSS_3072_SHA256
  else if algorithm = Algorithm_RSA_PSS_4096_SHA256 then some .RSA_SIGN_PSS_4096_SHA256
  else if algorithm = Algorithm_RSA_PSS_4096_SHA512 then some .RSA_SIGN_PSS_4096_SHA512
  else none

/-- The hash function the second algorithm switch of `keyVersionName`
(lines 220-245) assigns to each native algorithm; `none` for the
`default` branch. -/
def nativeHashFunc : NativeAlg → Option HashFunc
  | .EC_SIGN_P256_SHA256 => some .sha256
  | .EC_SIGN_P384_SHA384 => some .sha384
  | .RSA_SIGN_PKCS1_2048_SHA256 => some .sha256
  | .RSA_SIGN_PKCS1_3072_SHA256 => some .sha256
  | .RSA_SIGN_PKCS1_4096_SHA256 => some .sha256
  | .RSA_SIGN_PKCS1_4096_SHA512 => some .sha512
  | .RSA_SIGN_PSS_2048_SHA256 => some .sha256
  | .RSA_SIGN_PSS_3072_SHA256 => some .sha256
  | .RSA_SIGN_PSS_4096_SHA256 => some .sha256
  | .RSA_SIGN_PSS_4096_SHA512 => some .sha512
  | _ => none

/-! ## Reference parser

The anchored pattern
`^gcpkms://projects/([^/]+)/locations/([^/]+)/keyRings/([^/]+)/cryptoKeys/([^/]+)(?:/versions/([^/]+))?$`
is embedded as a character-level matcher: each literal is consumed
exactly, each `[^/]+` group takes the maximal nonempty run of
non-slash characters (exact here, since every group is followed by a
literal slash or the end of the string). -/

def litProjects : List Char := "gcpkms://projects/".data
def litLocations : List Char := "/locations/".data
def litKeyRings : List Char := "/keyRings/".data
def litCryptoKeys : List Char := "/cryptoKeys/".data
def litVersions : List Char := "/versions/".data

/-- Consume an exact literal from the front of the input. -/
def dropLit : List Char → List Char → Option (List Char)
  | [], s => some s
  | _ :: _, [] => none
  | c :: cs, d :: ds => if d = c then dropLit cs ds else none

/-- Split off the maximal (possibly empty) run of non-`'/'` characters. -/
def takeSeg : List Char → List Char × List Char
  | [] => ([], [])
  | c :: cs =>
    if c = '/' then ([], c :: cs)
    else ((takeSeg cs).1.cons c, (takeSeg cs).2)

/-- Consume a literal followed by one `[^/]+` group. -/
def litSeg (lit s : List Char) : Option (List Char × List Char) :=
  (dropLit lit s).bind fun r =>
    if (takeSeg r).1 = [] then none else some (takeSeg r)

/-- Match of the optional `(?:/versions/([^/]+))?$` suffix of the
pattern against the rest `r8` of the input, with `p l r k` the groups
already captured. -/
def versTail (p l r k r8 : List Char) :
    Option (List Char × List Char × List Char × List Char × Option (List Char)) :=
  match r8 with
  | [] => some (p, l, r, k, none)
  | _ :: _ =>
    (litSeg litVersions r8).bind fun vr =>
      if vr.2 = [] then some (p, l, r, k, some vr.1) else none

/-- The whole-string match of the reference pattern, returning the five
captured groups (the fifth `none` when the optional version part is
absent). -/
def parseRefChars (s : List Char) :
    Option (List Char × List Char × List Char × List Char × Option (List Char)) :=
  (litSeg litProjects s).bind fun pr =>
  (litSeg litLocations pr.2).bind fun lr =>
  (litSeg litKeyRings lr.2).bind fun rr =>
  (litSeg litCryptoKeys rr.2).bind fun kr =>
  versTail pr.1 lr.1 rr.1 kr.1 kr.2

/-- `ValidReference`: `re.MatchString` or the grammar-carrying
`ErrKMSReference`. -/
def ValidReference (ref : String) : Except GCPError Unit :=
  match parseRefChars ref.data with
  | none => .error .kmsReference
  | some _ => .ok ()

/-- `parseReference`: submatch extraction; an unmatched optional version
group comes back as the empty string, exactly as
`re.FindStringSubmatch` yields it. -/
def parseReference (resourceID : String) :
    Except GCPError (String × String × String × String × String) :=
  match parseRefChars resourceID.data with
  | none => .error (.invalidFormat resourceID)
  | some (p, l, r, k, v) =>
      .ok (⟨p⟩, ⟨l⟩, ⟨r⟩, ⟨k⟩, match v with | none => "" | some w => ⟨w⟩)

/-- A `[^/]+` group: nonempty and slash-free. -/
def isSeg (cs : List Char) : Prop := cs ≠ [] ∧ '/' ∉ cs

instance (cs : List Char) : Decidable (isSeg cs) := by
  unfold isSeg; infer_instance

/-- The optional `/versions/<V>` suffix. -/
def refTail : Option (List Char) → List Char
  | none => []
  | some v => litVersions ++ v

/-- A string of the reference grammar, assembled from its five groups. -/
def buildRef (p l r k : List Char) (v : Option (List Char)) : List Char :=
  litProjects ++ (p ++ (litLocations ++ (l ++ (litKeyRings ++
    (r ++ (litCryptoKeys ++ (k ++ refTail v)))))))

/-- All five groups of a reference are well-formed segments. -/
def goodSegs (p l r k : List Char) (v : Option (List Char)) : Prop :=
  isSeg p ∧ isSeg l ∧ isSeg r ∧ isSeg k ∧ ∀ w, v = some w → isSeg w

/-! ## Key version resolver -/

/-- Modelled from the spec: the local verifier factory (§6) builds a
verifier exposing the public key it is given; the Go call site hands it
the (nilable) private-key wrapper built around the fetched public key,
and no verifier can be built from a nil key. -/
def LoadECDSASignerVerifier (priv : Option PubKey) (hf : HashFunc) :
    Except GCPError SignerVerifier :=
  match priv with
  | none => .error .invalidKey
  | some k => .ok ⟨k, hf⟩

/-- Modelled from the spec: RSA-PKCS1v15 variant of the verifier factory (§6). -/
def LoadRSAPKCS1v15SignerVerifier (priv : Option PubKey) (hf : HashFunc) :
    Except GCPError SignerVerifier :=
  match priv with
  | none => .error .invalidKey
  | some k => .ok ⟨k, hf⟩

/-- Modelled from the spec: RSA-PSS variant of the verifier factory (§6). -/
def LoadRSAPSSSignerVerifier (priv : Option PubKey) (hf : HashFunc) :
    Except GCPError SignerVerifier :=
  match priv with
  | none => .error .invalidKey
  | some k => .ok ⟨k, hf⟩

/-- First algorithm switch of `keyVersionName` (lines 198-214): builds
the private-key wrappers `(rsaPriv, ecPriv)` from the fetched public
key. Both start out nil; note the `EC_SIGN_P256_SHA256` case body is
empty (Go `switch` does not fall through), so both stay nil there. A
failed Go type assertion is a panic. -/
def buildPrivs (alg : NativeAlg) (pubKey : PubKey) :
    Res (Option PubKey × Option PubKey) :=
  match alg with
  | .EC_SIGN_P256_SHA256 => .ok (none, none)
  | .EC_SIGN_P384_SHA384 =>
    match pubKey with
    | .ecdsaKey n => .ok (none, some (.ecdsaKey n))
    | _ => .panic
  | .RSA_SIGN_PKCS1_2048_SHA256 | .RSA_SIGN_PKCS1_3072_SHA256
  | .RSA_SIGN_PKCS1_4096_SHA256 | .RSA_SIGN_PKCS1_4096_SHA512
  | .RSA_SIGN_PSS_2048_SHA256 | .RSA_SIGN_PSS_3072_SHA256
  | .RSA_SIGN_PSS_4096_SHA256 | .RSA_SIGN_PSS_4096_SHA512 =>
    match pubKey with
    | .rsaKey n => .ok (some (.rsaKey n), none)
    | _ => .panic
  | _ => .err .unknownAlgorithm

/-- Second algorithm switch of `keyVersionName` (lines 220-245): builds
the `SignerVerifier` and records the hash function. -/
def buildSV (alg : NativeAlg) (rsaPriv ecPriv : Option PubKey) :
    Except GCPError (SignerVerifier × HashFunc) :=
  match alg with
  | .EC_SIGN_P256_SHA256 =>
    (LoadECDSASignerVerifier ecPriv .sha256).map (fun sv => (sv, .sha256))
  | .EC_SIGN_P384_SHA384 =>
    (LoadECDSASignerVerifier ecPriv .sha384).map (fun sv => (sv, .sha384))
  | .RSA_SIGN_PKCS1_2048_SHA256 | .RSA_SIGN_PKCS1_3072_SHA256 | .RSA_SIGN_PKCS1_4096_SHA256 =>
    (LoadRSAPKCS1v15SignerVerifier rsaPriv .sha256).map (fun sv => (sv, .sha256))
  | .RSA_SIGN_PKCS1_4096_SHA512 =>
    (LoadRSAPKCS1v15SignerVerifier rsaPriv .sha512).map (fun sv => (sv, .sha512))
  | .RSA_SIGN_PSS_2048_SHA256 | .RSA_SIGN_PSS_3072_SHA256 | .RSA_SIGN_PSS_4096_SHA256 =>
    (LoadRSAPSSSignerVerifier rsaPriv .sha256).map (fun sv => (sv, .sha256))
  | .RSA_SIGN_PSS_4096_SHA512 =>
    (LoadRSAPSSSignerVerifier rsaPriv .sha512).map (fun sv => (sv, .sha512))
  | _ => .error .unknownAlgorithm

/-- `fetchPublicKey` (lines 252-261): `GetPublicKey` then the PEM decoder. -/
def fetchPublicKey (env : KMSEnv) (ctx : Ctx) (name : String) :
    Except GCPError PubKey × List Event :=
  match env.getPublicKey name with
  | .error e => (.error (.wrap "public key" e), [.getPublicKey ctx name])
  | .ok pem => (env.unmarshalPEM pem, [.getPublicKey ctx name])

/-- Version selection inside `keyVersionName` (lines 164-187): the
pinned version is fetched by name, otherwise the first item of the
enabled-descending listing is taken. -/
def selectKV (env : KMSEnv) (g : GClient) (ctx : Ctx) :
    Except GCPError KVMsg × List Event :=
  if g.version ≠ "" then
    (env.getCryptoKeyVersion (keyParent g ++ "/cryptoKeyVersions/" ++ g.version),
     [.getCryptoKeyVersion ctx (keyParent g ++ "/cryptoKeyVersions/" ++ g.version)])
  else
    match env.listNext (keyParent g) with
    | .error e =>
      (.error (.wrap "unable to find an enabled key version in GCP KMS" e),
       [.listCryptoKeyVersions ctx (keyParent g)])
    | .ok kv => (.ok kv, [.listCryptoKeyVersions ctx (keyParent g)])

/-- `keyVersionName` (lines 150-250): the Key Version Resolver. -/
def keyVersionName (env : KMSEnv) (g : GClient) (ctx : Ctx) :
    Res cryptoKeyVersion × List Event :=
  let e1 := Event.getCryptoKey ctx (keyParent g)
  match env.getCryptoKey (keyParent g) with
  | .error e => (.err e, [e1])
  | .ok key =>
    if key.purpose = Purpose.ASYMMETRIC_SIGN then
      match selectKV env g ctx with
      | (.error e, evs) => (.err e, e1 :: evs)
      | (.ok kv, evs) =>
        match fetchPublicKey env ctx kv.name with
        | (.error e, evs2) =>
          (.err (.wrap "unable to fetch public key while creating signer" e), e1 :: (evs ++ evs2))
        | (.ok pubKey, evs2) =>
          match buildPrivs kv.algorithm pubKey with
          | .panic => (.panic, e1 :: (evs ++ evs2))
          | .err e => (.err e, e1 :: (evs ++ evs2))
          | .ok (rsaPriv, ecPriv) =>
            match buildSV kv.algorithm rsaPriv ecPriv with
            | .error e =>
              (.err (.wrap "initializing internal verifier" e), e1 :: (evs ++ evs2))
            | .ok (sv, hf) => (.ok ⟨kv, sv, hf⟩, e1 :: (evs ++ evs2))
    else (.err .cannotSign, [e1])

/-! ## Resolution cache -/

/-- One cache entry: the resolved version and its absolute expiry
instant (`none`: never expires, the ttl-0 case). -/
structure CacheEntry where
  value : cryptoKeyVersion
  expireAt : Option Nat
deriving DecidableEq

/-- The single-entry cache under the fixed key `CacheKey`. -/
structure CacheState where
  entry : Option CacheEntry
deriving DecidableEq

/-- `kvCacheLoaderFunction` (lines 137-147): ttl 0 for a pinned
version, 300 s otherwise; the resolution is issued with
`context.Background()` (line 144), not with any caller context. -/
def kvCacheLoaderFunction (env : KMSEnv) (g : GClient) :
    (Res cryptoKeyVersion × List Event) × Nat :=
  (keyVersionName env g .background, if g.version ≠ "" then 0 else 300)

/-- Modelled from the spec: the TTL cache collaborator (§4.4, §9) on a
miss or an expired entry invokes the registered loader and stores its
result with a freshly computed expiry (ttl 0 meaning no expiry); a
loader error leaves the cache unchanged and is surfaced. -/
def cacheReload (env : KMSEnv) (g : GClient) (st : CacheState) (now : Nat) :
    Res cryptoKeyVersion × CacheState × List Event :=
  match (kvCacheLoaderFunction env g).1.1 with
  | .ok v =>
    (.ok v,
     ⟨some ⟨v, if (kvCacheLoaderFunction env g).2 = 0 then none
               else some (now + (kvCacheLoaderFunction env g).2)⟩⟩,
     (kvCacheLoaderFunction env g).1.2)
  | .err e => (.err e, st, (kvCacheLoaderFunction env g).1.2)
  | .panic => (.panic, st, (kvCacheLoaderFunction env g).1.2)

/-- Modelled from the spec: `get` on the TTL cache (§4.4, §9) with
`SkipTTLExtensionOnHit(true)` (line 93): an unexpired entry is returned
with the cache state untouched (no sliding expiration); a miss or an
expired entry reloads through the loader. This is the cache read behind
`getCKV` (lines 273-281). -/
def cacheGet (env : KMSEnv) (g : GClient) (st : CacheState) (now : Nat) :
    Res cryptoKeyVersion × CacheState × List Event :=
  match st.entry with
  | none => cacheReload env g st now
  | some e =>
    match e.expireAt with
    | none => (.ok e.value, st, [])
    | some t => if now < t then (.ok e.value, st, []) else cacheReload env g st now

/-- A sequence of `getCKV` reads at the given instants, threading the
cache state and accumulating results and events. -/
def cacheReads (env : KMSEnv) (g : GClient) (st : CacheState) :
    List Nat → List (Res cryptoKeyVersion) × CacheState × List Event
  | [] => ([], st, [])
  | t :: ts =>
    match cacheGet env g st t with
    | (r, st1, evs) =>
      match cacheReads env g st1 ts with
      | (rs, st2, evs2) => (r :: rs, st2, evs ++ evs2)

/-! ## Signing/verification façade -/

/-- The `AsymmetricSignRequest` assembled by `sign` (lines 289-296): the
digest checksum is attached only when nonzero. -/
def mkSignReq (ckv : cryptoKeyVersion) (alg : HashFunc) (digest : List Nat) (crc : Nat) :
    SignRequest :=
  ⟨ckv.CryptoKeyVersion.name, alg, digest,
   if crc ≠ 0 then some (Int.ofNat crc) else none⟩

/-- The response-integrity tail of `sign` (lines 320-330): dereference
the claimed signature checksum (a nil pointer panics), recompute the
CRC-32C of the signature bytes, compare, and return the bytes
unmodified on agreement. -/
def signResponseCheck (resp : SignResponse) : Res (List Nat) :=
  match resp.signatureCrc32C with
  | none => .panic
  | some v =>
    if Int.ofNat (crc32c resp.signature) ≠ v then .err .responseCorrupted
    else .ok resp.signature

/-- `sign` (lines 283-331) after its `getCKV` read: request assembly,
hash-function switch, dispatch, request-integrity check (only for a
nonzero caller checksum), response-integrity check. -/
def sign (env : KMSEnv) (ckv : cryptoKeyVersion) (ctx : Ctx)
    (digest : List Nat) (alg : HashFunc) (crc : Nat) : Res (List Nat) × List Event :=
  if alg = .sha256 ∨ alg = .sha384 ∨ alg = .sha512 then
    match env.asymmetricSign (mkSignReq ckv alg digest crc) with
    | .error e =>
      (.err (.wrap "calling GCP AsymmetricSign" e),
       [.asymmetricSign ctx (mkSignReq ckv alg digest crc)])
    | .ok resp =>
      if crc ≠ 0 ∧ resp.verifiedDigestCrc32C = false then
        (.err .requestCorrupted, [.asymmetricSign ctx (mkSignReq ckv alg digest crc)])
      else
        (signResponseCheck resp, [.asymmetricSign ctx (mkSignReq ckv alg digest crc)])
  else (.err .unsupportedHash, [])

/-- `public` (lines 333-340): the public key of the cached resolved
version's verifier. -/
def publicMethod (env : KMSEnv) (g : GClient) (st : CacheState) (now : Nat) :
    Res PubKey × CacheState × List Event :=
  match cacheGet env g st now with
  | (.err e, st1, evs) => (.err (.wrap "transient error getting info from KMS" e), st1, evs)
  | (.panic, st1, evs) => (.panic, st1, evs)
  | (.ok crv, st1, evs) => (.ok crv.SignerVerifier.pubKey, st1, evs)

/-- `verify` (lines 342-360). The local `VerifySignature(sig, message,
opts…)` outcome for a given verifier is abstracted as `vres` (`none`:
the signature verifies; `some e`: it fails with `e`), since signature
mathematics lives in the verifier collaborator. -/
def verify (env : KMSEnv) (vres : SignerVerifier → Option GCPError)
    (g : GClient) (st : CacheState) (now : Nat) : Res Unit × CacheState × List Event :=
  match cacheGet env g st now with
  | (.err e, st1, evs) => (.err (.wrap "transient error getting info from KMS" e), st1, evs)
  | (.panic, st1, evs) => (.panic, st1, evs)
  | (.ok crv, st1, evs) =>
    match vres crv.SignerVerifier with
    | none => (.ok (), st1, evs ++ [.verifyAttempt crv.SignerVerifier])
    | some verr =>
      if g.version = "" then
        match cacheGet env g ⟨none⟩ now with
        | (.err e, st3, evs2) =>
          (.err (.wrap "transient error getting info from KMS" e), st3,
           evs ++ [.verifyAttempt crv.SignerVerifier, .cacheRemove] ++ evs2)
        | (.panic, st3, evs2) =>
          (.panic, st3, evs ++ [.verifyAttempt crv.SignerVerifier, .cacheRemove] ++ evs2)
        | (.ok crv2, st3, evs2) =>
          (match vres crv2.SignerVerifier with
           | none => .ok ()
           | some verr2 => .err verr2,
           st3,
           evs ++ [.verifyAttempt crv.SignerVerifier, .cacheRemove] ++ evs2
             ++ [.verifyAttempt crv2.SignerVerifier])
      else
        (.err (.wrap "failed to verify for fixed version" verr), st1,
         evs ++ [.verifyAttempt crv.SignerVerifier])

/-- `createKeyRing` (lines 407-424): tolerate an existing ring, else
create it. -/
def createKeyRing (env : KMSEnv) (g : GClient) (ctx : Ctx) :
    Except GCPError Unit × List Event :=
  match env.getKeyRing (keyRingName g) with
  | .ok _ => (.ok (), [.getKeyRing ctx (keyRingName g)])
  | .error _ =>
    match env.createKeyRing (ringParent g) g.keyRing with
    | .ok _ =>
      (.ok (), [.getKeyRing ctx (keyRingName g), .createKeyRing ctx (ringParent g) g.keyRing])
    | .error e =>
      (.error e, [.getKeyRing ctx (keyRingName g), .createKeyRing ctx (ringParent g) g.keyRing])

/-- `createKey` (lines 362-405): ensure the ring, short-circuit to the
current public key when the key already exists, then (and only then)
consult the algorithm map, create the key and return its public key. -/
def createKey (env : KMSEnv) (g : GClient) (ctx : Ctx) (st : CacheState) (now : Nat)
    (algorithm : String) : Res PubKey × CacheState × List Event :=
  match createKeyRing env g ctx with
  | (.error e, evs) => (.err (.wrap "creating key ring" e), st, evs)
  | (.ok _, evs) =>
    match env.getCryptoKey (keyParent g) with
    | .ok _ =>
      match publicMethod env g st now with
      | (r, st1, evs2) => (r, st1, evs ++ [.getCryptoKey ctx (keyParent g)] ++ evs2)
    | .error _ =>
      match algorithmMap algorithm with
      | none =>
        (.err .unknownAlgorithmRequested, st, evs ++ [.getCryptoKey ctx (keyParent g)])
      | some nalg =>
        match env.createCryptoKey (keyRingName g) g.keyName nalg with
        | .error e =>
          (.err (.wrap "creating crypto key" e), st,
           evs ++ [.getCryptoKey ctx (keyParent g),
                   .createCryptoKey ctx (keyRingName g) g.keyName nalg])
        | .ok _ =>
          match publicMethod env g st now with
          | (r, st1, evs2) =>
            (r, st1,
             evs ++ [.getCryptoKey ctx (keyParent g),
                     .createCryptoKey ctx (keyRingName g) g.keyName nalg] ++ evs2)

/-! ## Concrete clients, environments and states used in witnesses -/

/-- Unpinned client for `gcpkms://projects/p/locations/l/keyRings/r/cryptoKeys/k`. -/
def gU : GClient := ⟨"p", "l", "r", "k", ""⟩

/-- Pinned client for `…/cryptoKeys/k/versions/1`. -/
def gP : GClient := ⟨"p", "l", "r", "k", "1"⟩

/-- A healthy service: one enabled ECDSA P-384 version, EC public key 8. -/
def envHealthy : KMSEnv where
  getCryptoKey := fun _ => .ok ⟨.ASYMMETRIC_SIGN⟩
  getCryptoKeyVersion := fun n => .ok ⟨n, .EC_SIGN_P384_SHA384⟩
  listNext := fun p => .ok ⟨p ++ "/cryptoKeyVersions/2", .EC_SIGN_P384_SHA384⟩
  getPublicKey := fun _ => .ok "pem"
  unmarshalPEM := fun _ => .ok (.ecdsaKey 8)
  asymmetricSign := fun _ => .ok ⟨[], some 0, true⟩
  getKeyRing := fun _ => .ok "ring"
  createKeyRing := fun _ _ => .ok "ring"
  createCryptoKey := fun _ _ _ => .ok ()

/-- Same service, but the enabled version uses ECDSA P-256/SHA-256 and
its public key decodes to EC key 42. -/
def envP256svc : KMSEnv :=
  { envHealthy with
    listNext := fun p => .ok ⟨p ++ "/cryptoKeyVersions/3", .EC_SIGN_P256_SHA256⟩
    unmarshalPEM := fun _ => .ok (.ecdsaKey 42) }

/-- Key ring exists, but the crypto key does not. -/
def envRingOnly : KMSEnv :=
  { envHealthy with getCryptoKey := fun _ => .error (.remoteErr 404) }

/-- Service whose sign response claims checksum 1 for an empty signature. -/
def envSigBad : KMSEnv :=
  { envHealthy with asymmetricSign := fun _ => .ok ⟨[], some 1, true⟩ }

/-- Service reporting that the request digest checksum did not verify. -/
def envReqBad : KMSEnv :=
  { envHealthy with asymmetricSign := fun _ => .ok ⟨[], some 0, false⟩ }

/-- Service whose successful sign response carries no signature checksum. -/
def envNoRespCrc : KMSEnv :=
  { envHealthy with asymmetricSign := fun _ => .ok ⟨[], none, true⟩ }

/-- A previously resolved key version wrapping EC public key 7. -/
def ckvOld : cryptoKeyVersion :=
  ⟨⟨"projects/p/locations/l/keyRings/r/cryptoKeys/k/cryptoKeyVersions/1",
    .EC_SIGN_P384_SHA384⟩, ⟨.ecdsaKey 7, .sha384⟩, .sha384⟩

/-- Cache primed with `ckvOld`, never expiring. -/
def stPrimed : CacheState := ⟨some ⟨ckvOld, none⟩⟩

/-- Cache holding `ckvOld` with expiry instant 300. -/
def stExpiring : CacheState := ⟨some ⟨ckvOld, some 300⟩⟩

/-- Local verification outcome that rejects exactly the verifier over
EC key 7 (the stale key) and accepts any other. -/
def vres7 : SignerVerifier → Option GCPError :=
  fun sv => if sv.pubKey = .ecdsaKey 7 then some (.remoteErr 1) else none

/-- Local verification outcome that accepts everything. -/
def vresOk : SignerVerifier → Option GCPError := fun _ => none

/-- Whether a trace event was issued under the given context
(local actions — cache removal, local verify attempts — do not count). -/
def usesCtx (c : Ctx) (ev : Event) : Bool := eventCtx ev == some c

/-- Same service, but the enabled version carries the symmetric
algorithm (outside the supported signing set). -/
def envSymm : KMSEnv :=
  { envHealthy with
    listNext := fun p => .ok ⟨p ++ "/cryptoKeyVersions/9", .GOOGLE_SYMMETRIC_ENCRYPTION⟩ }

/-- `keyParent` of both `gU` and `gP`. -/
def parentPLRK : String := "projects/p/locations/l/keyRings/r/cryptoKeys/k"

/-- The version `envHealthy` resolves for the pinned client `gP`. -/
def ckvP1 : cryptoKeyVersion :=
  ⟨⟨parentPLRK ++ "/cryptoKeyVersions/1", .EC_SIGN_P384_SHA384⟩,
   ⟨.ecdsaKey 8, .sha384⟩, .sha384⟩

/-- The version `envHealthy` resolves for the unpinned client `gU`. -/
def ckvU2 : cryptoKeyVersion :=
  ⟨⟨parentPLRK ++ "/cryptoKeyVersions/2", .EC_SIGN_P384_SHA384⟩,
   ⟨.ecdsaKey 8, .sha384⟩, .sha384⟩

/-! ## Theorems: reference parser -/

theorem dropLit_self (lit s : List Char) : dropLit lit (lit ++ s) = some s := by
  induction lit with
  | nil => rfl
  | cons c cs ih => simp [dropLit, ih]

theorem dropLit_sound : ∀ (lit s r : List Char), dropLit lit s = some r → s = lit ++ r := by
  intro lit
  induction lit with
  | nil =>
    intro s r h
    simp only [dropLit] at h
    cases h
    simp
  | cons c cs ih =>
    intro s r h
    cases s with
    | nil => simp [dropLit] at h
    | cons d ds =>
      simp only [dropLit] at h
      by_cases hdc : d = c
      · subst hdc
        simp only [if_pos rfl] at h
        have := ih ds r h
        simp [this]
      · simp [hdc] at h

theorem takeSeg_sound : ∀ (s a b : List Char), takeSeg s = (a, b) → s = a ++ b ∧ '/' ∉ a := by
  intro s
  induction s with
  | nil =>
    intro a b h
    simp only [takeSeg, Prod.mk.injEq] at h
    obtain ⟨rfl, rfl⟩ := h
    simp
  | cons c cs ih =>
    intro a b h
    by_cases hc : c = '/'
    · subst hc
      simp only [takeSeg, if_pos rfl, Prod.mk.injEq] at h
      obtain ⟨rfl, rfl⟩ := h
      simp
    · simp only [takeSeg, if_neg hc, Prod.mk.injEq] at h
      obtain ⟨ha, hb⟩ := h
      obtain ⟨h1, h2⟩ := ih (takeSeg cs).1 (takeSeg cs).2 rfl
      subst ha hb
      constructor
      · simpa using congrArg (c :: ·) h1
      · simp only [List.mem_cons, not_or]
        exact ⟨fun e => hc e.symm, h2⟩

theorem takeSeg_app : ∀ (p rest : List Char), '/' ∉ p →
    takeSeg (p ++ '/' :: rest) = (p, '/' :: rest) := by
  intro p
  induction p with
  | nil => intro rest _; simp [takeSeg]
  | cons c cs ih =>
    intro rest h
    simp only [List.mem_cons, not_or] at h
    have hc : ¬ c = '/' := fun e => h.1 e.symm
    simp [takeSeg, hc, ih rest h.2]

theorem takeSeg_all : ∀ (p : List Char), '/' ∉ p → takeSeg p = (p, []) := by
  intro p
  induction p with
  | nil => intro _; rfl
  | cons c cs ih =>
    intro h
    simp only [List.mem_cons, not_or] at h
    have hc : ¬ c = '/' := fun e => h.1 e.symm
    simp [takeSeg, hc, ih h.2]

theorem litSeg_sound (lit s a b : List Char) :
    litSeg lit s = some (a, b) → s = lit ++ (a ++ b) ∧ isSeg a := by
  intro h
  rw [litSeg, Option.bind_eq_some] at h
  obtain ⟨r, hd, h⟩ := h
  by_cases hx : (takeSeg r).1 = []
  · rw [if_pos hx] at h
    exact Option.noConfusion h
  · rw [if_neg hx] at h
    have ht : takeSeg r = (a, b) := Option.some.inj h
    obtain ⟨h1, h2⟩ := takeSeg_sound r a b ht
    refine ⟨by rw [dropLit_sound lit s r hd, h1], ?_, h2⟩
    intro e
    exact hx (by rw [ht]; exact e)

theorem litSeg_app (lit a b : List Char) (ha : isSeg a) (hb : b = [] ∨ ∃ t, b = '/' :: t) :
    litSeg lit (lit ++ (a ++ b)) = some (a, b) := by
  rcases hb with rfl | ⟨t, rfl⟩
  · rw [litSeg, dropLit_self]
    show (if (takeSeg (a ++ [])).1 = [] then none
      else some (takeSeg (a ++ []))) = some (a, [])
    rw [List.append_nil, takeSeg_all a ha.2]
    simp [ha.1]
  · rw [litSeg, dropLit_self]
    show (if (takeSeg (a ++ '/' :: t)).1 = [] then none
      else some (takeSeg (a ++ '/' :: t))) = some (a, '/' :: t)
    rw [takeSeg_app a t ha.2]
    simp [ha.1]

theorem versTail_sound (p l r k r8 : List Char)
    (out : List Char × List Char × List Char × List Char × Option (List Char)) :
    versTail p l r k r8 = some out →
    ∃ v, out = (p, l, r, k, v) ∧ r8 = refTail v ∧ ∀ w, v = some w → isSeg w := by
  intro h
  cases r8 with
  | nil =>
    refine ⟨none, (Option.some.inj h).symm, rfl, ?_⟩
    intro w hw
    cases hw
  | cons c8 cs8 =>
    rw [versTail, Option.bind_eq_some] at h
    obtain ⟨⟨v1, r10⟩, h5, h⟩ := h
    by_cases hr10 : r10 = []
    · rw [if_pos hr10] at h
      subst hr10
      obtain ⟨hs5, hseg5⟩ := litSeg_sound _ _ _ _ h5
      refine ⟨some v1, (Option.some.inj h).symm, ?_, ?_⟩
      · rw [hs5, refTail]
        simp
      · intro w hw
        cases hw
        exact hseg5
    · rw [if_neg hr10] at h
      exact Option.noConfusion h

theorem litLocations_cons : litLocations = '/' :: "locations/".data := rfl

theorem litKeyRings_cons : litKeyRings = '/' :: "keyRings/".data := rfl

theorem litCryptoKeys_cons : litCryptoKeys = '/' :: "cryptoKeys/".data := rfl

theorem litVersions_cons : litVersions = '/' :: "versions/".data := rfl

theorem versTail_complete (p l r k : List Char) (v : Option (List Char))
    (hv : ∀ w, v = some w → isSeg w) :
    versTail p l r k (refTail v) = some (p, l, r, k, v) := by
  cases v with
  | none => rfl
  | some w =>
    show versTail p l r k (litVersions ++ w) = some (p, l, r, k, some w)
    rw [show (litVersions ++ w : List Char) = '/' :: ("versions/".data ++ w) by
      rw [litVersions_cons]; simp]
    rw [versTail, show ('/' :: ("versions/".data ++ w) : List Char)
      = litVersions ++ (w ++ []) by rw [litVersions_cons]; simp]
    rw [litSeg_app litVersions w [] (hv w rfl) (Or.inl rfl)]
    rfl

theorem parseRefChars_sound (s p l r k : List Char) (v : Option (List Char)) :
    parseRefChars s = some (p, l, r, k, v) → s = buildRef p l r k v ∧ goodSegs p l r k v := by
  intro h
  rw [parseRefChars, Option.bind_eq_some] at h
  obtain ⟨⟨p1, r2⟩, h1, h⟩ := h
  rw [Option.bind_eq_some] at h
  obtain ⟨⟨l1, r4⟩, h2, h⟩ := h
  rw [Option.bind_eq_some] at h
  obtain ⟨⟨r1, r6⟩, h3, h⟩ := h
  rw [Option.bind_eq_some] at h
  obtain ⟨⟨k1, r8⟩, h4, h⟩ := h
  obtain ⟨v1, hout, htl, hsegv⟩ := versTail_sound _ _ _ _ _ _ h
  obtain ⟨hs1, hseg1⟩ := litSeg_sound _ _ _ _ h1
  obtain ⟨hs2, hseg2⟩ := litSeg_sound _ _ _ _ h2
  obtain ⟨hs3, hseg3⟩ := litSeg_sound _ _ _ _ h3
  obtain ⟨hs4, hseg4⟩ := litSeg_sound _ _ _ _ h4
  obtain ⟨rfl, rfl, rfl, rfl, rfl⟩ :
      p = p1 ∧ l = l1 ∧ r = r1 ∧ k = k1 ∧ v = v1 := by
    have := hout.symm.trans rfl
    simp only [Prod.mk.injEq] at this
    exact ⟨this.1.symm, this.2.1.symm, this.2.2.1.symm, this.2.2.2.1.symm, this.2.2.2.2.symm⟩
  dsimp only at hs2 hs3 hs4 htl
  refine ⟨?_, hseg1, hseg2, hseg3, hseg4, hsegv⟩
  rw [buildRef, hs1, hs2, hs3, hs4, htl]

theorem parseRefChars_complete (p l r k : List Char) (v : Option (List Char))
    (hs : goodSegs p l r k v) : parseRefChars (buildRef p l r k v) = some (p, l, r, k, v) := by
  obtain ⟨hp, hl, hr, hk, hv⟩ := hs
  rw [parseRefChars, buildRef]
  rw [litSeg_app litProjects p _ hp
    (Or.inr ⟨"locations/".data ++ (l ++ (litKeyRings ++ (r ++ (litCryptoKeys
      ++ (k ++ refTail v))))), by rw [litLocations_cons]; simp⟩)]
  rw [Option.some_bind]
  rw [litSeg_app litLocations l _ hl
    (Or.inr ⟨"keyRings/".data ++ (r ++ (litCryptoKeys ++ (k ++ refTail v))),
      by rw [litKeyRings_cons]; simp⟩)]
  rw [Option.some_bind]
  rw [litSeg_app litKeyRings r _ hr
    (Or.inr ⟨"cryptoKeys/".data ++ (k ++ refTail v), by rw [litCryptoKeys_cons]; simp⟩)]
  rw [Option.some_bind]
  have hb : refTail v = [] ∨ ∃ t, refTail v = '/' :: t := by
    cases v with
    | none => exact Or.inl rfl
    | some w =>
      refine Or.inr ⟨"versions/".data ++ w, ?_⟩
      show litVersions ++ w = _
      rw [litVersions_cons]
      simp
  rw [litSeg_app litCryptoKeys k (refTail v) hk hb]
  rw [Option.some_bind]
  exact versTail_complete p l r k v hv

/-- C7: a string not matching the anchored reference grammar makes both
`ValidReference` and `parseReference` fail with their malformed-reference
errors (`ErrKMSReference`, whose message carries the expected grammar,
and the `invalid gcpkms format` error respectively); a string matching
it makes `parseReference` return exactly the five matched groups (the
absent optional version coming back as the empty string), with no
partially populated result. -/
theorem claim_C7 (s : String) :
    (¬ (∃ p l r k v, s.data = buildRef p l r k v ∧ goodSegs p l r k v) →
      ValidReference s = .error .kmsReference ∧
      parseReference s = .error (.invalidFormat s)) ∧
    (∀ p l r k v, s.data = buildRef p l r k v → goodSegs p l r k v →
      ValidReference s = .ok () ∧
      parseReference s =
        .ok (⟨p⟩, ⟨l⟩, ⟨r⟩, ⟨k⟩, match v with | none => "" | some w => ⟨w⟩)) := by
  constructor
  · intro hnm
    have hnone : parseRefChars s.data = none := by
      cases hpc : parseRefChars s.data with
      | none => rfl
      | some out =>
        obtain ⟨p, l, r, k, v⟩ := out
        obtain ⟨hb, hg⟩ := parseRefChars_sound s.data p l r k v hpc
        exact absurd ⟨p, l, r, k, v, hb, hg⟩ hnm
    constructor
    · rw [ValidReference, hnone]
    · rw [parseReference, hnone]
  · intro p l r k v hb hg
    have hsome : parseRefChars s.data = some (p, l, r, k, v) := by
      rw [hb]
      exact parseRefChars_complete p l r k v hg
    constructor
    · rw [ValidReference, hsome]
    · rw [parseReference, hsome]

/-- Witness for C7: a pinned and an unpinned reference parse to their
groups, and a non-matching string is rejected with `ErrKMSReference`. -/
theorem claim_C7_witness :
    (ValidReference "gcpkms://projects/p1/locations/l1/keyRings/r1/cryptoKeys/k1/versions/7"
        = .ok () ∧
      parseReference "gcpkms://projects/p1/locations/l1/keyRings/r1/cryptoKeys/k1/versions/7"
        = .ok ("p1", "l1", "r1", "k1", "7")) ∧
    (ValidReference "gcpkms://bogus" = .error .kmsReference ∧
      parseReference "gcpkms://bogus" = .error (.invalidFormat "gcpkms://bogus")) := by
  constructor
  · exact (claim_C7 _).2 "p1".data "l1".data "r1".data "k1".data (some "7".data)
      rfl (by refine ⟨?_, ?_, ?_, ?_, ?_⟩ <;> first
        | (intro w hw; cases hw; decide)
        | decide)
  · refine (claim_C7 _).1 ?_
    rintro ⟨p, l, r, k, v, hb, hg⟩
    have hc := parseRefChars_complete p l r k v hg
    rw [← hb] at hc
    rw [show parseRefChars "gcpkms://bogus".data = none from rfl] at hc
    exact Option.noConfusion hc

/-! ## Theorems: resolution cache -/

theorem cacheGet_noExpiry (env : KMSEnv) (g : GClient) (st : CacheState)
    (v : cryptoKeyVersion) (now : Nat) (hst : st.entry = some ⟨v, none⟩) :
    cacheGet env g st now = (.ok v, st, []) := by
  rw [cacheGet, hst]

/-- C6: a never-expiring entry (what the loader stores for a pinned
reference, ttl 0) serves any sequence of reads over arbitrary idle
times with zero re-resolutions and the identical version, leaving the
cache untouched; a pinned-reference reload stores exactly such an
entry; an unpinned reload stores expiry `now + 300` (5 minutes); an
unexpired read returns the entry with the state unchanged — in
particular it never extends the remaining time-to-live — and a read at
or past the expiry instant goes to the loader. -/
theorem claim_C6 :
    (∀ (env : KMSEnv) (g : GClient) (v : cryptoKeyVersion) (ts : List Nat),
      g.version ≠ "" → ∀ st : CacheState, st.entry = some ⟨v, none⟩ →
      cacheReads env g st ts = (ts.map fun _ => Res.ok v, st, [])) ∧
    (∀ (env : KMSEnv) (g : GClient) (v : cryptoKeyVersion) (st1 : CacheState)
      (evs : List Event) (t0 : Nat), g.version ≠ "" →
      cacheGet env g ⟨none⟩ t0 = (.ok v, st1, evs) →
      st1.entry = some ⟨v, none⟩) ∧
    (∀ (env : KMSEnv) (g : GClient) (v : cryptoKeyVersion) (st1 : CacheState)
      (evs : List Event) (t0 : Nat), g.version = "" →
      cacheGet env g ⟨none⟩ t0 = (.ok v, st1, evs) →
      st1.entry = some ⟨v, some (t0 + 300)⟩) ∧
    (∀ (env : KMSEnv) (g : GClient) (v : cryptoKeyVersion) (texp now : Nat),
      now < texp →
      cacheGet env g ⟨some ⟨v, some texp⟩⟩ now = (.ok v, ⟨some ⟨v, some texp⟩⟩, [])) ∧
    (∀ (env : KMSEnv) (g : GClient) (v : cryptoKeyVersion) (texp now : Nat),
      texp ≤ now →
      cacheGet env g ⟨some ⟨v, some texp⟩⟩ now
        = cacheReload env g ⟨some ⟨v, some texp⟩⟩ now) := by
  refine ⟨?_, ?_, ?_, ?_, ?_⟩
  · intro env g v ts _
    induction ts with
    | nil =>
      intro st hst
      simp [cacheReads]
    | cons t ts ih =>
      intro st hst
      rw [cacheReads, cacheGet_noExpiry env g st v t hst]
      simp [ih st hst]
  · intro env g v st1 evs t0 hp h
    rw [show cacheGet env g ⟨none⟩ t0 = cacheReload env g ⟨none⟩ t0 from rfl] at h
    rw [cacheReload] at h
    rcases hkv : (kvCacheLoaderFunction env g).1.1 with w | e
    · rw [hkv] at h
      have httl : (kvCacheLoaderFunction env g).2 = 0 := by
        rw [kvCacheLoaderFunction]
        simp [hp]
      rw [httl] at h
      simp only [if_pos rfl, Prod.mk.injEq] at h
      obtain ⟨hw, hst1, -⟩ := h
      rw [← hst1]
      cases hw
      rfl
    · rw [hkv] at h
      simp at h
    · rw [hkv] at h
      simp at h
  · intro env g v st1 evs t0 hp h
    rw [show cacheGet env g ⟨none⟩ t0 = cacheReload env g ⟨none⟩ t0 from rfl] at h
    rw [cacheReload] at h
    rcases hkv : (kvCacheLoaderFunction env g).1.1 with w | e
    · rw [hkv] at h
      have httl : (kvCacheLoaderFunction env g).2 = 300 := by
        rw [kvCacheLoaderFunction]
        simp [hp]
      rw [httl] at h
      simp only [Prod.mk.injEq] at h
      obtain ⟨hw, hst1, -⟩ := h
      rw [← hst1]
      cases hw
      rfl
    · rw [hkv] at h
      simp at h
    · rw [hkv] at h
      simp at h
  · intro env g v texp now hlt
    rw [cacheGet]
    simp [hlt]
  · intro env g v texp now hle
    rw [cacheGet]
    simp [Nat.not_lt.mpr hle]

/-- Witness for C6: under the healthy service, a pinned façade's primed
entry answers reads at instants 0 and 10^9 identically with no events;
priming the pinned cache at instant 0 stores a never-expiring entry;
priming the unpinned cache stores expiry 300; an unpinned read at 299
leaves the expiring entry untouched; at 300 it reloads. -/
theorem claim_C6_witness :
    cacheReads envHealthy gP stPrimed [0, 1000000000]
      = ([.ok ckvOld, .ok ckvOld], stPrimed, []) ∧
    (cacheGet envHealthy gP ⟨none⟩ 0).2.1.entry = some ⟨ckvP1, none⟩ ∧
    (cacheGet envHealthy gU ⟨none⟩ 0).2.1.entry = some ⟨ckvU2, some 300⟩ ∧
    cacheGet envHealthy gU stExpiring 299 = (.ok ckvOld, stExpiring, []) ∧
    cacheGet envHealthy gU stExpiring 300
      = cacheReload envHealthy gU stExpiring 300 := by
  refine ⟨?_, ?_, ?_, ?_, ?_⟩
  · have h := claim_C6.1 envHealthy gP ckvOld [0, 1000000000]
      (by decide) stPrimed rfl
    simpa using h
  · exact congrArg (fun st => st.entry)
      (congrArg (fun x => x.2.1)
        (rfl : cacheGet envHealthy gP ⟨none⟩ 0
          = (.ok ckvP1, ⟨some ⟨ckvP1, none⟩⟩, (cacheGet envHealthy gP ⟨none⟩ 0).2.2))) ▸
      claim_C6.2.1 envHealthy gP ckvP1 (cacheGet envHealthy gP ⟨none⟩ 0).2.1
        (cacheGet envHealthy gP ⟨none⟩ 0).2.2 0 (by decide) rfl
  · exact claim_C6.2.2.1 envHealthy gU ckvU2 (cacheGet envHealthy gU ⟨none⟩ 0).2.1
      (cacheGet envHealthy gU ⟨none⟩ 0).2.2 0 rfl rfl
  · exact claim_C6.2.2.2.1 envHealthy gU ckvOld 300 299 (by decide)
  · exact claim_C6.2.2.2.2 envHealthy gU ckvOld 300 300 (by decide)

/-! ## Theorems: verification retry -/

/-- C3: when the first verification attempt fails (the cache read
returned `crv` and the local verifier rejects it), an unpinned
reference invalidates the cache and re-resolves exactly once — the
retry reads the emptied cache, which always goes through the loader
(third conjunct), so re-resolution happens before re-verification —
and returns the second attempt's outcome with no further attempt; a
pinned reference returns the wrapped `failed to verify for fixed
version` error immediately, with no invalidation, no re-resolution and
no second attempt (state and trace unchanged beyond the first read and
attempt). -/
theorem claim_C3 (env : KMSEnv) (vres : SignerVerifier → Option GCPError)
    (g : GClient) (st : CacheState) (now : Nat) (crv : cryptoKeyVersion)
    (st1 : CacheState) (evs : List Event) (verr : GCPError)
    (h1 : cacheGet env g st now = (.ok crv, st1, evs))
    (h2 : vres crv.SignerVerifier = some verr) :
    (g.version = "" →
      verify env vres g st now =
        match cacheGet env g ⟨none⟩ now with
        | (.ok crv2, st3, evs2) =>
          ((match vres crv2.SignerVerifier with
            | none => Res.ok ()
            | some verr2 => Res.err verr2),
           st3,
           evs ++ [.verifyAttempt crv.SignerVerifier, .cacheRemove] ++ evs2
             ++ [.verifyAttempt crv2.SignerVerifier])
        | (.err e, st3, evs2) =>
          (.err (.wrap "transient error getting info from KMS" e), st3,
           evs ++ [.verifyAttempt crv.SignerVerifier, .cacheRemove] ++ evs2)
        | (.panic, st3, evs2) =>
          (.panic, st3,
           evs ++ [.verifyAttempt crv.SignerVerifier, .cacheRemove] ++ evs2)) ∧
    (g.version ≠ "" →
      verify env vres g st now =
        (.err (.wrap "failed to verify for fixed version" verr), st1,
         evs ++ [.verifyAttempt crv.SignerVerifier])) ∧
    cacheGet env g ⟨none⟩ now = cacheReload env g ⟨none⟩ now := by
  refine ⟨?_, ?_, rfl⟩
  · intro hv
    rw [verify]
    simp only [h1, h2, hv, if_pos rfl]
    rcases h3 : cacheGet env g ⟨none⟩ now with ⟨r2, st3, evs2⟩
    cases r2 <;> simp
  · intro hv
    rw [verify]
    simp only [h1, h2, if_neg hv]

/-- Witness for C3: with a cached stale verifier over EC key 7 that the
local verifier rejects, the unpinned façade invalidates, re-resolves
with the loader (fresh EC key 8) and succeeds on the second attempt;
the pinned façade fails immediately with the wrapped error, cache
untouched. -/
theorem claim_C3_witness :
    verify envHealthy vres7 gU stPrimed 5
      = (.ok (), ⟨some ⟨ckvU2, some 305⟩⟩,
         [.verifyAttempt ⟨.ecdsaKey 7, .sha384⟩, .cacheRemove,
          .getCryptoKey .background parentPLRK,
          .listCryptoKeyVersions .background parentPLRK,
          .getPublicKey .background (parentPLRK ++ "/cryptoKeyVersions/2"),
          .verifyAttempt ⟨.ecdsaKey 8, .sha384⟩]) ∧
    verify envHealthy vres7 gP stPrimed 5
      = (.err (.wrap "failed to verify for fixed version" (.remoteErr 1)), stPrimed,
         [.verifyAttempt ⟨.ecdsaKey 7, .sha384⟩]) := by
  constructor
  · have h := (claim_C3 envHealthy vres7 gU stPrimed 5 ckvOld stPrimed []
      (.remoteErr 1) rfl rfl).1 rfl
    exact h.trans (by rfl)
  · exact (claim_C3 envHealthy vres7 gP stPrimed 5 ckvOld stPrimed []
      (.remoteErr 1) rfl rfl).2.1 (by decide)

/-! ## Theorems: sign integrity checks -/

/-- C4: for a dispatch that succeeds (and whose request-integrity guard
does not fire — with a zero caller checksum it never does, C5 covering
the complementary `RequestCorrupted` path) and a present response
checksum, `sign` recomputes the CRC-32C of the returned signature
bytes, fails with `ResponseCorrupted` exactly when it differs from the
service-claimed value, and returns the bytes unmodified when it agrees;
`crc` is arbitrary, so the check is not gated on a nonzero request
checksum. -/
theorem claim_C4 (env : KMSEnv) (ckv : cryptoKeyVersion) (ctx : Ctx)
    (digest : List Nat) (alg : HashFunc) (crc : Nat) (resp : SignResponse) (v : Int)
    (halg : alg = .sha256 ∨ alg = .sha384 ∨ alg = .sha512)
    (hdisp : env.asymmetricSign (mkSignReq ckv alg digest crc) = .ok resp)
    (hreq : crc = 0 ∨ resp.verifiedDigestCrc32C = true)
    (hcrc : resp.signatureCrc32C = some v) :
    sign env ckv ctx digest alg crc =
      ((if Int.ofNat (crc32c resp.signature) = v then .ok resp.signature
        else .err .responseCorrupted),
       [.asymmetricSign ctx (mkSignReq ckv alg digest crc)]) := by
  have hguard : ¬ (crc ≠ 0 ∧ resp.verifiedDigestCrc32C = false) := by
    rcases hreq with h | h
    · exact fun hc => hc.1 h
    · intro hc
      rw [h] at hc
      exact Bool.noConfusion hc.2
  rw [sign, if_pos halg]
  simp only [hdisp, if_neg hguard]
  rw [signResponseCheck, hcrc]
  by_cases hm : Int.ofNat (crc32c resp.signature) = v
  · simp [hm]
  · simp [hm]

/-- Witness for C4: an empty signature whose claimed checksum is 0
(the CRC-32C of the empty message) passes and is returned unmodified,
under a nonzero caller checksum; the same signature with claimed
checksum 1 fails with `ResponseCorrupted`. -/
theorem claim_C4_witness :
    sign envHealthy ckvOld (.caller 2) [10] .sha256 5
      = (.ok [], [.asymmetricSign (.caller 2) (mkSignReq ckvOld .sha256 [10] 5)]) ∧
    sign envSigBad ckvOld (.caller 2) [10] .sha256 5
      = (.err .responseCorrupted,
         [.asymmetricSign (.caller 2) (mkSignReq ckvOld .sha256 [10] 5)]) := by
  constructor
  · have h := claim_C4 envHealthy ckvOld (.caller 2) [10] .sha256 5
      ⟨[], some 0, true⟩ 0 (Or.inl rfl) rfl (Or.inr rfl) rfl
    rw [show Int.ofNat (crc32c []) = 0 from rfl] at h
    simpa using h
  · have h := claim_C4 envSigBad ckvOld (.caller 2) [10] .sha256 5
      ⟨[], some 1, true⟩ 1 (Or.inl rfl) rfl (Or.inr rfl) rfl
    rw [show Int.ofNat (crc32c []) = 0 from rfl] at h
    simpa using h

/-- C5: the assembled request attaches the digest checksum exactly when
it is nonzero; a nonzero checksum with a service report that the digest
checksum did not verify fails with `RequestCorrupted` after the single
dispatch (no retry in the trace); a zero checksum makes the outcome the
response-integrity check alone, whatever `verifiedDigestCrc32C` says —
no request-corruption check is performed. -/
theorem claim_C5 (env : KMSEnv) (ckv : cryptoKeyVersion) (ctx : Ctx)
    (digest : List Nat) (alg : HashFunc) (crc : Nat) (resp : SignResponse)
    (halg : alg = .sha256 ∨ alg = .sha384 ∨ alg = .sha512)
    (hdisp : env.asymmetricSign (mkSignReq ckv alg digest crc) = .ok resp) :
    ((mkSignReq ckv alg digest crc).digestCrc32C
       = if crc = 0 then none else some (Int.ofNat crc)) ∧
    (crc ≠ 0 → resp.verifiedDigestCrc32C = false →
      sign env ckv ctx digest alg crc
        = (.err .requestCorrupted,
           [.asymmetricSign ctx (mkSignReq ckv alg digest crc)])) ∧
    (crc = 0 →
      sign env ckv ctx digest alg crc
        = (signResponseCheck resp,
           [.asymmetricSign ctx (mkSignReq ckv alg digest crc)])) := by
  refine ⟨?_, ?_, ?_⟩
  · rw [mkSignReq]
    by_cases hc : crc = 0
    · simp [hc]
    · simp [hc]
  · intro hc hv
    rw [sign, if_pos halg]
    simp only [hdisp, if_pos (And.intro hc hv)]
  · intro hc
    have hguard : ¬ (crc ≠ 0 ∧ resp.verifiedDigestCrc32C = false) :=
      fun hcc => hcc.1 hc
    rw [sign, if_pos halg]
    simp only [hdisp, if_neg hguard]

/-- Witness for C5: checksum 5 is attached, checksum 0 is not; a
nonzero checksum whose verification the service denies yields
`RequestCorrupted`; the same denying service with a zero checksum
still returns the signature (no request-corruption check). -/
theorem claim_C5_witness :
    (mkSignReq ckvOld .sha256 [10] 5).digestCrc32C = some 5 ∧
    (mkSignReq ckvOld .sha256 [10] 0).digestCrc32C = none ∧
    sign envReqBad ckvOld (.caller 3) [10] .sha256 5
      = (.err .requestCorrupted,
         [.asymmetricSign (.caller 3) (mkSignReq ckvOld .sha256 [10] 5)]) ∧
    sign envReqBad ckvOld (.caller 3) [10] .sha256 0
      = (.ok [], [.asymmetricSign (.caller 3) (mkSignReq ckvOld .sha256 [10] 0)]) := by
  refine ⟨?_, ?_, ?_, ?_⟩
  · have h := (claim_C5 envReqBad ckvOld (.caller 3) [10] .sha256 5
      ⟨[], some 0, false⟩ (Or.inl rfl) rfl).1
    simpa using h
  · have h := (claim_C5 envReqBad ckvOld (.caller 3) [10] .sha256 0
      ⟨[], some 0, false⟩ (Or.inl rfl) rfl).1
    simpa using h
  · exact (claim_C5 envReqBad ckvOld (.caller 3) [10] .sha256 5
      ⟨[], some 0, false⟩ (Or.inl rfl) rfl).2.1 (by decide) rfl
  · have h := (claim_C5 envReqBad ckvOld (.caller 3) [10] .sha256 0
      ⟨[], some 0, false⟩ (Or.inl rfl) rfl).2.2 rfl
    exact h.trans (by rfl)

/-- C10: a successful dispatch whose response carries no signature
checksum makes `sign` dereference a nil pointer: the comparison is
unguarded, so the outcome is a panic, not a returned error — `sign` is
total only if every successful response includes a signature
checksum. -/
theorem claim_C10 (env : KMSEnv) (ckv : cryptoKeyVersion) (ctx : Ctx)
    (digest : List Nat) (alg : HashFunc) (crc : Nat) (resp : SignResponse)
    (halg : alg = .sha256 ∨ alg = .sha384 ∨ alg = .sha512)
    (hdisp : env.asymmetricSign (mkSignReq ckv alg digest crc) = .ok resp)
    (hreq : crc = 0 ∨ resp.verifiedDigestCrc32C = true)
    (hnone : resp.signatureCrc32C = none) :
    sign env ckv ctx digest alg crc
      = (.panic, [.asymmetricSign ctx (mkSignReq ckv alg digest crc)]) := by
  have hguard : ¬ (crc ≠ 0 ∧ resp.verifiedDigestCrc32C = false) := by
    rcases hreq with h | h
    · exact fun hc => hc.1 h
    · intro hc
      rw [h] at hc
      exact Bool.noConfusion hc.2
  rw [sign, if_pos halg]
  simp only [hdisp, if_neg hguard]
  rw [signResponseCheck, hnone]

/-- Witness for C10: a service answering without a signature checksum
drives `sign` into the nil dereference. -/
theorem claim_C10_witness :
    sign envNoRespCrc ckvOld (.caller 4) [10] .sha256 0
      = (.panic, [.asymmetricSign (.caller 4) (mkSignReq ckvOld .sha256 [10] 0)]) :=
  claim_C10 envNoRespCrc ckvOld (.caller 4) [10] .sha256 0
    ⟨[], none, true⟩ (Or.inl rfl) rfl (Or.inl rfl) rfl

/-! ## Theorems: resolver (C1 bug, C8) -/

/-- C1 (code bug): in the first algorithm switch of `keyVersionName`
the `EC_SIGN_P256_SHA256` case body is empty and Go `switch` cases do
not fall through, so `ecPriv` stays nil for P-256 and the fetched
public key is never wrapped: with a service exposing an enabled
ECDSA P-256/SHA-256 version whose public key decodes fine (EC key 42),
resolution fails at verifier construction instead of returning a
`ResolvedKeyVersion` whose verifier holds that key. The identical
service shape with P-384 succeeds and its verifier key equals the
fetched key (EC key 8), isolating the defect to P-256. -/
theorem claim_C1_bug :
    keyVersionName envP256svc gU (.caller 0)
      = (.err (.wrap "initializing internal verifier" .invalidKey),
         [.getCryptoKey (.caller 0) parentPLRK,
          .listCryptoKeyVersions (.caller 0) parentPLRK,
          .getPublicKey (.caller 0) (parentPLRK ++ "/cryptoKeyVersions/3")]) ∧
    envP256svc.unmarshalPEM "pem" = .ok (.ecdsaKey 42) ∧
    keyVersionName envHealthy gU (.caller 0)
      = (.ok ckvU2,
         [.getCryptoKey (.caller 0) parentPLRK,
          .listCryptoKeyVersions (.caller 0) parentPLRK,
          .getPublicKey (.caller 0) (parentPLRK ++ "/cryptoKeyVersions/2")]) ∧
    ckvU2.SignerVerifier.pubKey = .ecdsaKey 8 ∧
    envHealthy.unmarshalPEM "pem" = .ok (.ecdsaKey 8) :=
  ⟨rfl, rfl, rfl, rfl, rfl⟩

/-- C8 counterexample: when the target key already exists, `createKey`
short-circuits to returning the cached public key before ever
consulting the algorithm map, so an unsupported name does not make it
fail with `UnsupportedAlgorithm`. -/
theorem claim_C8_counterexample :
    createKey envHealthy gU (.caller 1) stPrimed 0 "no-such-algorithm"
      = (.ok (.ecdsaKey 7), stPrimed,
         [.getKeyRing (.caller 1) "projects/p/locations/l/keyRings/r",
          .getCryptoKey (.caller 1) parentPLRK]) ∧
    algorithmMap "no-such-algorithm" = none :=
  ⟨rfl, rfl⟩

/-- C8 (amended): every supported caller-facing name maps to its
documented (native algorithm, hash function) pair; whenever the second
switch accepts an algorithm the hash it records is `nativeHashFunc`;
any native algorithm outside the ten supported ones makes resolution
fail closed with the `unknown algorithm` error rather than defaulting;
and an unsupported name makes `createKey` fail with
`UnsupportedAlgorithm` provided the key-ring step succeeded and the
target key does not already exist. -/
theorem claim_C8_amended :
    ((algorithmMap Algorithm_ECDSA_P256_SHA256 = some .EC_SIGN_P256_SHA256
        ∧ nativeHashFunc .EC_SIGN_P256_SHA256 = some .sha256) ∧
      (algorithmMap Algorithm_ECDSA_P384_SHA384 = some .EC_SIGN_P384_SHA384
        ∧ nativeHashFunc .EC_SIGN_P384_SHA384 = some .sha384) ∧
      (algorithmMap Algorithm_RSA_PKCS1v15_2048_SHA256 = some .RSA_SIGN_PKCS1_2048_SHA256
        ∧ nativeHashFunc .RSA_SIGN_PKCS1_2048_SHA256 = some .sha256) ∧
      (algorithmMap Algorithm_RSA_PKCS1v15_3072_SHA256 = some .RSA_SIGN_PKCS1_3072_SHA256
        ∧ nativeHashFunc .RSA_SIGN_PKCS1_3072_SHA256 = some .sha256) ∧
      (algorithmMap Algorithm_RSA_PKCS1v15_4096_SHA256 = some .RSA_SIGN_PKCS1_4096_SHA256
        ∧ nativeHashFunc .RSA_SIGN_PKCS1_4096_SHA256 = some .sha256) ∧
      (algorithmMap Algorithm_RSA_PKCS1v15_4096_SHA512 = some .RSA_SIGN_PKCS1_4096_SHA512
        ∧ nativeHashFunc .RSA_SIGN_PKCS1_4096_SHA512 = some .sha512) ∧
      (algorithmMap Algorithm_RSA_PSS_2048_SHA256 = some .RSA_SIGN_PSS_2048_SHA256
        ∧ nativeHashFunc .RSA_SIGN_PSS_2048_SHA256 = some .sha256) ∧
      (algorithmMap Algorithm_RSA_PSS_3072_SHA256 = some .RSA_SIGN_PSS_3072_SHA256
        ∧ nativeHashFunc .RSA_SIGN_PSS_3072_SHA256 = some .sha256) ∧
      (algorithmMap Algorithm_RSA_PSS_4096_SHA256 = some .RSA_SIGN_PSS_4096_SHA256
        ∧ nativeHashFunc .RSA_SIGN_PSS_4096_SHA256 = some .sha256) ∧
      (algorithmMap Algorithm_RSA_PSS_4096_SHA512 = some .RSA_SIGN_PSS_4096_SHA512
        ∧ nativeHashFunc .RSA_SIGN_PSS_4096_SHA512 = some .sha512)) ∧
    (∀ (a : NativeAlg) (rsaP ecP : Option PubKey) (sv : SignerVerifier) (h : HashFunc),
      buildSV a rsaP ecP = .ok (sv, h) → nativeHashFunc a = some h) ∧
    (∀ (a : NativeAlg), nativeHashFunc a = none →
      ∀ (env : KMSEnv) (g : GClient) (ctx : Ctx) (key : CryptoKey) (kv : KVMsg)
        (evs evs2 : List Event) (pk : PubKey),
        env.getCryptoKey (keyParent g) = .ok key →
        key.purpose = .ASYMMETRIC_SIGN →
        selectKV env g ctx = (.ok kv, evs) →
        kv.algorithm = a →
        fetchPublicKey env ctx kv.name = (.ok pk, evs2) →
        (keyVersionName env g ctx).1 = .err .unknownAlgorithm) ∧
    (∀ (env : KMSEnv) (g : GClient) (ctx : Ctx) (st : CacheState) (now : Nat)
      (name : String) (evsR : List Event) (e : GCPError),
      algorithmMap name = none →
      createKeyRing env g ctx = (.ok (), evsR) →
      env.getCryptoKey (keyParent g) = .error e →
      (createKey env g ctx st now name).1 = .err .unknownAlgorithmRequested) := by
  refine ⟨by decide, ?_, ?_, ?_⟩
  · intro a rsaP ecP sv h hb
    cases a <;> cases rsaP <;> cases ecP <;>
      simp_all [buildSV, LoadECDSASignerVerifier, LoadRSAPKCS1v15SignerVerifier,
        LoadRSAPSSSignerVerifier, Except.map, nativeHashFunc]
  · intro a ha env g ctx key kv evs evs2 pk h1 h2 h3 h4 h5
    have hb : buildPrivs kv.algorithm pk = .err .unknownAlgorithm := by
      rw [h4]
      cases a <;> simp_all [nativeHashFunc, buildPrivs]
    rw [keyVersionName]
    simp only [h1, if_pos h2, h3, h5, hb]
  · intro env g ctx st now name evsR e hmap hring hkey
    rw [createKey]
    simp only [hring, hkey, hmap]

/-- Witness for C8 (amended): the P-384 branch of the second switch
records SHA-384; a symmetric-algorithm version makes resolution fail
closed under the healthy service shape; an unsupported name fails
`createKey` when the key ring exists and the key does not. -/
theorem claim_C8_witness :
    nativeHashFunc .EC_SIGN_P384_SHA384 = some .sha384 ∧
    (keyVersionName envSymm gU (.caller 6)).1 = .err .unknownAlgorithm ∧
    (createKey envRingOnly gU (.caller 6) ⟨none⟩ 0 "nope").1
      = .err .unknownAlgorithmRequested := by
  refine ⟨?_, ?_, ?_⟩
  · exact claim_C8_amended.2.1 .EC_SIGN_P384_SHA384 none (some (.ecdsaKey 8))
      ⟨.ecdsaKey 8, .sha384⟩ .sha384 rfl
  · exact claim_C8_amended.2.2.1 .GOOGLE_SYMMETRIC_ENCRYPTION rfl envSymm gU
      (.caller 6) ⟨.ASYMMETRIC_SIGN⟩ ⟨parentPLRK ++ "/cryptoKeyVersions/9",
        .GOOGLE_SYMMETRIC_ENCRYPTION⟩
      [.listCryptoKeyVersions (.caller 6) parentPLRK]
      [.getPublicKey (.caller 6) (parentPLRK ++ "/cryptoKeyVersions/9")]
      (.ecdsaKey 8) rfl rfl rfl rfl rfl
  · exact claim_C8_amended.2.2.2 envRingOnly gU (.caller 6) ⟨none⟩ 0 "nope"
      [.getKeyRing (.caller 6) "projects/p/locations/l/keyRings/r"]
      (.remoteErr 404) rfl rfl rfl

/-! ## Theorems: createKey call order (C2) -/

/-- C2 counterexample: with an existing key ring and an absent key, an
unsupported algorithm name does fail with `UnsupportedAlgorithm` — but
only after a remote key-ring lookup and a remote key lookup: both
appear in the trace before the failure, refuting "before any remote
call is made". -/
theorem claim_C2_counterexample :
    createKey envRingOnly gU (.caller 0) ⟨none⟩ 0 "no-such-algorithm"
      = (.err .unknownAlgorithmRequested, ⟨none⟩,
         [.getKeyRing (.caller 0) "projects/p/locations/l/keyRings/r",
          .getCryptoKey (.caller 0) parentPLRK]) ∧
    Event.getKeyRing (.caller 0) "projects/p/locations/l/keyRings/r"
        ∈ (createKey envRingOnly gU (.caller 0) ⟨none⟩ 0 "no-such-algorithm").2.2 ∧
    Event.getCryptoKey (.caller 0) parentPLRK
        ∈ (createKey envRingOnly gU (.caller 0) ⟨none⟩ 0 "no-such-algorithm").2.2 :=
  ⟨rfl, by decide, by decide⟩

/-- C2 (amended): for an unsupported algorithm name, `createKey` fails
with `UnsupportedAlgorithm` after the key-ring ensure and the
key-existence lookup (whose events open the trace), provided the
key-ring step succeeded and the key does not already exist; no
key-creation call is made and the cache is untouched. (When the key
already exists the algorithm map is never consulted at all.) -/
theorem claim_C2_amended (env : KMSEnv) (g : GClient) (ctx : Ctx) (st : CacheState)
    (now : Nat) (name : String) (evsR : List Event) (e : GCPError)
    (hmap : algorithmMap name = none)
    (hring : createKeyRing env g ctx = (.ok (), evsR))
    (hkey : env.getCryptoKey (keyParent g) = .error e) :
    createKey env g ctx st now name
      = (.err .unknownAlgorithmRequested, st,
         evsR ++ [.getCryptoKey ctx (keyParent g)]) := by
  rw [createKey]
  simp only [hring, hkey, hmap]

/-- Witness for C2 (amended): the ring-only service with algorithm name
`bogus`. -/
theorem claim_C2_witness :
    createKey envRingOnly gU (.caller 9) ⟨none⟩ 0 "bogus"
      = (.err .unknownAlgorithmRequested, ⟨none⟩,
         [.getKeyRing (.caller 9) "projects/p/locations/l/keyRings/r",
          .getCryptoKey (.caller 9) parentPLRK]) :=
  claim_C2_amended envRingOnly gU (.caller 9) ⟨none⟩ 0 "bogus"
    [.getKeyRing (.caller 9) "projects/p/locations/l/keyRings/r"]
    (.remoteErr 404) rfl rfl rfl

/-! ## Theorems: context propagation (C9) -/

theorem selectKV_all (env : KMSEnv) (g : GClient) (ctx : Ctx) :
    ((selectKV env g ctx).2.all (usesCtx ctx)) = true := by
  rw [selectKV]
  by_cases hv : g.version = ""
  · rw [if_neg (fun hne => hne hv)]
    cases h : env.listNext (keyParent g) <;> simp [h, usesCtx, eventCtx]
  · rw [if_pos hv]
    simp [usesCtx, eventCtx]

theorem fetchPublicKey_all (env : KMSEnv) (ctx : Ctx) (name : String) :
    ((fetchPublicKey env ctx name).2.all (usesCtx ctx)) = true := by
  rw [fetchPublicKey]
  cases h : env.getPublicKey name <;> simp [h, usesCtx, eventCtx]

theorem keyVersionName_all (env : KMSEnv) (g : GClient) (ctx : Ctx) :
    ((keyVersionName env g ctx).2.all (usesCtx ctx)) = true := by
  rw [keyVersionName]
  cases hgk : env.getCryptoKey (keyParent g) with
  | error e => simp [usesCtx, eventCtx]
  | ok key =>
    by_cases hp : key.purpose = Purpose.ASYMMETRIC_SIGN
    · rcases hsk : selectKV env g ctx with ⟨rsel, evs⟩
      have hall := selectKV_all env g ctx
      rw [hsk] at hall
      cases rsel with
      | error e => simp_all [usesCtx, eventCtx]
      | ok kv =>
        rcases hfp : fetchPublicKey env ctx kv.name with ⟨rf, evs2⟩
        have hall2 := fetchPublicKey_all env ctx kv.name
        rw [hfp] at hall2
        cases rf with
        | error e => simp_all [usesCtx, eventCtx]
        | ok pk =>
          cases hbp : buildPrivs kv.algorithm pk with
          | panic => simp_all [usesCtx, eventCtx]
          | err e => simp_all [usesCtx, eventCtx]
          | ok privs =>
            obtain ⟨rsaP, ecP⟩ := privs
            cases hbs : buildSV kv.algorithm rsaP ecP with
            | error e => simp_all [usesCtx, eventCtx]
            | ok svh =>
              obtain ⟨sv, hf⟩ := svh
              simp_all [usesCtx, eventCtx]
    · simp [hgk, if_neg hp, usesCtx, eventCtx]

theorem kvLoader_all (env : KMSEnv) (g : GClient) :
    ((kvCacheLoaderFunction env g).1.2.all (usesCtx .background)) = true := by
  have h := keyVersionName_all env g .background
  rw [kvCacheLoaderFunction]
  exact h

/-- C9 counterexample: a `verify` call on an unpinned façade whose
cached entry has expired refreshes through the loader, and every
remote call of that refresh is issued with `context.Background()`
(line 144) — the loader cannot receive a caller context at all (Go's
`verify` does not even take one), refuting "the resolution performed
during a cache refresh receives the caller's context". -/
theorem claim_C9_counterexample :
    (verify envHealthy vresOk gU stExpiring 301).2.2
      = [.getCryptoKey .background parentPLRK,
         .listCryptoKeyVersions .background parentPLRK,
         .getPublicKey .background (parentPLRK ++ "/cryptoKeyVersions/2"),
         .verifyAttempt ⟨.ecdsaKey 8, .sha384⟩] ∧
    ((kvCacheLoaderFunction envHealthy gU).1.2.all (usesCtx .background)) = true ∧
    ((kvCacheLoaderFunction envHealthy gU).1.2.all (usesCtx (.caller 0))) = false :=
  ⟨rfl, by decide, by decide⟩

/-- C9 (amended): every remote call of a single `keyVersionName`
invocation, of `sign`'s dispatch and of `createKeyRing` carries the
context that call was given; but the resolution performed during a
cache refresh (`kvCacheLoaderFunction`, hence any reload reached from
`getCKV` inside verify/public/sign/createKey) always runs under the
fresh background context, never a caller's. -/
theorem claim_C9_amended :
    (∀ (env : KMSEnv) (g : GClient) (ctx : Ctx),
      ((keyVersionName env g ctx).2.all (usesCtx ctx)) = true) ∧
    (∀ (env : KMSEnv) (ckv : cryptoKeyVersion) (ctx : Ctx) (digest : List Nat)
      (alg : HashFunc) (crc : Nat),
      ((sign env ckv ctx digest alg crc).2.all (usesCtx ctx)) = true) ∧
    (∀ (env : KMSEnv) (g : GClient) (ctx : Ctx),
      ((createKeyRing env g ctx).2.all (usesCtx ctx)) = true) ∧
    (∀ (env : KMSEnv) (g : GClient),
      ((kvCacheLoaderFunction env g).1.2.all (usesCtx .background)) = true) ∧
    (∀ (env : KMSEnv) (g : GClient) (st : CacheState) (now : Nat),
      ((cacheReload env g st now).2.2.all (usesCtx .background)) = true) := by
  refine ⟨keyVersionName_all, ?_, ?_, kvLoader_all, ?_⟩
  · intro env ckv ctx digest alg crc
    rw [sign]
    by_cases halg : alg = .sha256 ∨ alg = .sha384 ∨ alg = .sha512
    · rw [if_pos halg]
      cases h : env.asymmetricSign (mkSignReq ckv alg digest crc) with
      | error e => simp [usesCtx, eventCtx]
      | ok resp =>
        by_cases hg : crc ≠ 0 ∧ resp.verifiedDigestCrc32C = false
        · simp [hg, usesCtx, eventCtx]
        · simp [hg, usesCtx, eventCtx]
    · rw [if_neg halg]
      simp
  · intro env g ctx
    rw [createKeyRing]
    cases h1 : env.getKeyRing (keyRingName g) with
    | ok s => simp [usesCtx, eventCtx]
    | error e =>
      cases h2 : env.createKeyRing (ringParent g) g.keyRing <;>
        simp [h2, usesCtx, eventCtx]
  · intro env g st now
    rw [cacheReload]
    cases h : (kvCacheLoaderFunction env g).1.1 <;> simp [kvLoader_all env g]

end GCPKMS
